import Mathlib

/-!
# StudyOS — Plan Compilation & Enforcement Engine: shallow embedding

A shallow embedding in Lean 4 of the core logic of `src/app.py`
(the slide-plan enforcement and deck-building engine), together with
theorems settling the specification's claims about it.

Python strings are modelled as `List Char` (`PyStr`); `str.lower`/`str.upper`
are modelled character-wise (the ASCII fragment, via `Char.toLower`/
`Char.toUpper`); the Python substring test `a in b` is `List.IsInfix`.
Untrusted JSON-like values (the slide plan) are modelled by the inductive
`PVal`; Python `dict`s are insertion-ordered association lists whose update
semantics (`dictSet`) replaces an existing key in place and appends a new
key at the end, as CPython does.  Places where the Python code would raise
an uncaught exception are modelled with `Option`: `none` is "raises".
-/

/-- Python `str`, modelled as a list of characters. -/
abbrev PyStr := List Char

/-- Coerce a Lean string literal to a `PyStr`. -/
def strL (s : String) : PyStr := s.toList

/-- Python `str.lower()` (ASCII fragment, character-wise). -/
def pyLower (s : PyStr) : PyStr := s.map Char.toLower

/-- Python `str.upper()` (ASCII fragment, character-wise). -/
def pyUpper (s : PyStr) : PyStr := s.map Char.toUpper

/-- Python `str.strip()`: drop leading and trailing whitespace. -/
def pyStrip (s : PyStr) : PyStr :=
  ((s.dropWhile Char.isWhitespace).reverse.dropWhile Char.isWhitespace).reverse

/-- The Python substring test `needle in hay` on strings. -/
def pyIn (needle hay : PyStr) : Bool := decide (needle <:+: hay)

/-- Model of `s.strip().lower()`, the normalization applied to layout names
throughout `app.py`. -/
def normName (s : PyStr) : PyStr := pyLower (pyStrip s)

/-- Python `str(n)` for an `int` `n`. -/
def intToPyStr (n : Int) : PyStr := (toString n).toList

/-- A JSON-like Python value, as found in an untrusted slide plan. -/
inductive PVal where
  | vnone
  | vstr (s : PyStr)
  | vint (n : Int)
  | vlist (l : List PVal)
  | vdict (d : List (PyStr × PVal))

/-- A Python dict, as an insertion-ordered association list. -/
abbrev PyDict := List (PyStr × PVal)

/-- Python `d.get(k)` / `d[k]`: the binding of `k`, if any.  A dict's
keys are unique, so the association list's first binding is the binding. -/
def dget (d : PyDict) (k : PyStr) : Option PVal :=
  match d with
  | [] => none
  | p :: rest => if p.1 == k then some p.2 else dget rest k

/-- Python `d[k] = v`: replace the binding of `k` in place if present,
else append it at the end (CPython insertion-order semantics). -/
def dictSet (d : PyDict) (k : PyStr) (v : PVal) : PyDict :=
  match d with
  | [] => [(k, v)]
  | p :: rest => if p.1 == k then (k, v) :: rest else p :: dictSet rest k v

/-- Python truthiness of a `PVal` (`bool(v)`). -/
def pyTruthy : PVal → Bool
  | .vnone => false
  | .vstr [] => false
  | .vstr (_ :: _) => true
  | .vint n => n != 0
  | .vlist [] => false
  | .vlist (_ :: _) => true
  | .vdict [] => false
  | .vdict (_ :: _) => true

/-- Model of `v or ""` followed by use as a string, as in
`(s.get("layout_name") or "").strip().lower()`: a falsy value becomes the
empty string; a truthy non-string raises (`none`). -/
def pyOrStr : PVal → Option PyStr
  | .vnone => some []
  | .vstr s => some s
  | .vint n => if n = 0 then some [] else none
  | .vlist [] => some []
  | .vlist (_ :: _) => none
  | .vdict [] => some []
  | .vdict (_ :: _) => none

/-! ## Layout metadata (`load_metadata`, app.py lines 21–37)

The metadata JSON has a known shape (it is the repository's own config
file: `layouts: [{layout_name, layout_description, placeholders:
[{id, content_description, maxchars?}]}]`), so it is modelled typed. -/

/-- One entry of a layout's `placeholders` list in `layout_metadata.json`. -/
structure PlaceholderRule where
  id : Int
  content_description : PyStr
  maxchars : Option Int
deriving DecidableEq

/-- One entry of the metadata's `layouts` list. -/
structure LayoutDescriptor where
  layout_name : PyStr
  layout_description : PyStr
  placeholders : List PlaceholderRule
deriving DecidableEq

/-- The parsed `layout_metadata.json`. -/
structure Metadata where
  layouts : List LayoutDescriptor
deriving DecidableEq

/-- Model of `meta["_layouts_by_name"].get(key)`: the dict comprehension
`{l["layout_name"].strip().lower(): l for l in layouts}` is last-write-wins,
so `.get key` returns the last layout whose normalized name is `key`. -/
def layouts_by_name (m : Metadata) (key : PyStr) : Option LayoutDescriptor :=
  (m.layouts.filter (fun l => normName l.layout_name == key)).getLast?

/-- Model of `meta["_must_have_names"]`: names of layouts whose description contains
`"must have"` (case-insensitive), in metadata order (app.py lines 26–29). -/
def must_have_names (m : Metadata) : List PyStr :=
  (m.layouts.filter (fun l => pyIn (strL "must have") (pyLower l.layout_description))).map
    (·.layout_name)

/-- Model of `meta["_ignore_names"]`: names of layouts whose description contains
`"ignore"` (case-insensitive) (app.py lines 30–33). -/
def ignore_names (m : Metadata) : List PyStr :=
  (m.layouts.filter (fun l => pyIn (strL "ignore") (pyLower l.layout_description))).map
    (·.layout_name)

/-- The normalized forbidden set `set([n.strip().lower() for n in
METADATA["_ignore_names"]])` (app.py line 118); membership only. -/
def ignoreSet (m : Metadata) : List PyStr := (ignore_names m).map normName

/-! ## Content rule transformer (app.py lines 43–66) -/

/-- Model of `sentence_case` (app.py lines 43–47): strip, then uppercase the first
character. -/
def sentence_case (s : PyStr) : PyStr :=
  match pyStrip s with
  | [] => []
  | c :: rest => c.toUpper :: rest

/-- Python `str.title()` (ASCII fragment): the first character of each
run of alphabetic characters is uppercased, the rest lowercased. -/
def pyTitleAux : Bool → List Char → List Char
  | _, [] => []
  | prevAlpha, c :: cs =>
    if c.isAlpha then
      (if prevAlpha then c.toLower else c.toUpper) :: pyTitleAux true cs
    else
      c :: pyTitleAux false cs

/-- Python `str.title()`. -/
def pyTitle (s : PyStr) : PyStr := pyTitleAux false s

/-- Model of `apply_content_rule` (app.py lines 50–60).  `t = text or ""` is the
identity on strings, since the only falsy string is already `""`. -/
def apply_content_rule (text : PyStr) (rule_desc : PyStr) : PyStr :=
  let d := pyLower rule_desc
  let t := text
  if pyIn (strL "all-caps") d || pyIn (strL "all caps") d then pyUpper t
  else if pyIn (strL "title case") d then pyTitle t
  else if pyIn (strL "sentence case") d then sentence_case t
  else t

/-- Model of `clip_text` (app.py lines 63–66).  `max_chars and max_chars > 0` is
falsy for `None` and for `0`, so the clip fires exactly when
`max_chars > 0` and the text is longer. -/
def clip_text (text : PyStr) (max_chars : Option Int) : PyStr :=
  match max_chars with
  | none => text
  | some n => if n > 0 ∧ (text.length : Int) > n then text.take n.toNat else text

/-! ## Layout resolver (`find_layout`, app.py lines 69–80)

A template layout carries its pptx name (possibly `None`, hence `Option`)
and the placeholder indices of its shapes. -/

/-- A `pptx` slide layout as the engine sees it: its name and the
placeholder-format indices of its (text) placeholder shapes. -/
structure SlideLayout where
  name : Option PyStr
  phIds : List Int
deriving DecidableEq

/-- The exact-match predicate of `find_layout`'s first loop:
`(l.name or "").strip().lower() == target`. -/
def layoutNameIs (target : PyStr) (l : SlideLayout) : Bool :=
  normName (l.name.getD []) == target

/-- The relaxed-containment predicate of `find_layout`'s second loop:
`target and target in (l.name or "").strip().lower()`. -/
def layoutNameHas (target : PyStr) (l : SlideLayout) : Bool :=
  decide (target ≠ []) && pyIn target (normName (l.name.getD []))

/-- Model of `find_layout` (app.py lines 69–80): first exact normalized match, then
first normalized-containment match (only for a non-empty target), then the
template's first layout.  `none` models the `IndexError` of
`prs.slide_layouts[0]` on a template with no layouts. -/
def find_layout (tmpl : List SlideLayout) (layout_name : PyStr) : Option SlideLayout :=
  let target := normName layout_name
  match tmpl.find? (layoutNameIs target) with
  | some l => some l
  | none =>
    match tmpl.find? (layoutNameHas target) with
    | some l => some l
    | none => tmpl.head?

/-! ## Plan enforcer (`enforce_plan_rules`, app.py lines 114–148) -/

/-- Iterating `plan.get("slides", [])` in a `for` loop: lists iterate to
their elements; an empty string or dict iterates to nothing; a non-empty
string or dict yields elements on which `.get` raises (`none`); other
values are not iterable (`none`). -/
def asSlideList : PVal → Option (List PVal)
  | .vlist l => some l
  | .vstr [] => some []
  | .vstr (_ :: _) => none
  | .vdict [] => some []
  | .vdict (_ :: _) => none
  | .vnone => none
  | .vint _ => none

/-- Model of `(s.get("layout_name") or "").strip().lower()` for a slide-spec `s`:
the normalized layout name of a slide spec, `none` where Python raises
(non-dict spec, or truthy non-string name). -/
def slideNormName (s : PVal) : Option PyStr :=
  match s with
  | .vdict d => (pyOrStr ((dget d (strL "layout_name")).getD .vnone)).map normName
  | _ => none

/-- The filter loop of `enforce_plan_rules` (app.py lines 117–124): keep
the slide specs whose normalized layout name is not in the ignore set,
raising (`none`) on the first spec whose name cannot be computed. -/
def filterIgnored (ig : List PyStr) : List PVal → Option (List PVal)
  | [] => some []
  | s :: rest => do
    let n ← slideNormName s
    let r ← filterIgnored ig rest
    if n ∈ ig then pure r else pure (s :: r)

/-- The presence set (app.py line 127): the normalized layout names of a
list of slide specs; membership only is used. -/
def namesOf : List PVal → Option (List PyStr)
  | [] => some []
  | s :: rest => do
    let n ← slideNormName s
    let ns ← namesOf rest
    pure (n :: ns)

/-- The default text synthesized for one placeholder of a missing
must-have layout (app.py lines 137–141). -/
def defaultPhText (ph : PlaceholderRule) : PyStr :=
  let dl := pyLower ph.content_description
  if pyIn (strL "title") dl && !(pyIn (strL "summary") dl) then
    if pyIn (strL "synonym") dl then strL "SUMMARY" else strL "TOPIC"
  else
    strL "Auto-generated content about the topic."

/-- The `placeholders` dict built for a missing must-have layout
(app.py lines 132–141): empty when no layout descriptor is indexed under
`key`, else one entry per declared placeholder rule, keyed by `str(id)`. -/
def synthPlaceholders (m : Metadata) (key : PyStr) : PyDict :=
  match layouts_by_name m key with
  | none => []
  | some l =>
    l.placeholders.foldl
      (fun acc ph => dictSet acc (intToPyStr ph.id) (.vstr (defaultPhText ph))) []

/-- The slide dict appended for a missing must-have layout
(app.py lines 142–145). -/
def synthSlide (m : Metadata) (must : PyStr) : PVal :=
  .vdict [(strL "layout_name", .vstr must),
          (strL "placeholders", .vdict (synthPlaceholders m (normName must)))]

/-- The must-have loop of `enforce_plan_rules` (app.py lines 126–145):
append a synthesized slide for each must-have name whose normalized form
is absent from `present`.  As in the source, `present` is not updated as
slides are appended. -/
def addMusts (m : Metadata) (present : List PyStr) (musts : List PyStr)
    (slides : List PVal) : List PVal :=
  musts.foldl
    (fun acc must =>
      if normName must ∈ present then acc else acc ++ [synthSlide m must])
    slides

/-- Model of `enforce_plan_rules` (app.py lines 114–148), parametrized by the
metadata (the source reads the module-level `METADATA`).  `none` models an
uncaught Python exception on malformed plans. -/
def enforce_plan_rules (m : Metadata) (plan : PyDict) : Option PyDict := do
  let slides0 ← asSlideList ((dget plan (strL "slides")).getD (.vlist []))
  let keep ← filterIgnored (ignoreSet m) slides0
  let present ← namesOf keep
  let slides := addMusts m present (must_have_names m) keep
  pure (dictSet plan (strL "slides") (.vlist slides))

/-! ## Deck builder (app.py lines 83–111 and 265–292)

A deck slide records the layout it was instantiated from and the
placeholder texts set on it (`fill_placeholders`).  The module models
placeholder shapes by their `placeholder_format.idx` (the `try/except`
around reading `idx`, and the `hasattr(shp, "text_frame")` guard, are
modelled by listing exactly the text-bearing placeholder indices in
`SlideLayout.phIds`). -/

/-- A slide of the assembled deck: the layout it was added from and the
texts written into its placeholders, in fill order. -/
structure DeckSlide where
  layout : SlideLayout
  texts : List (Int × PyStr)
deriving DecidableEq

/-- A value fetched from the spec's `placeholders` mapping, used as the
text to set: falsy values pass through `text or ""` as `""`; a truthy
non-string raises when cased, clipped, or written (`none`). -/
def itemText : PVal → Option PyStr
  | .vnone => some []
  | .vstr s => some s
  | .vint n => if n = 0 then some [] else none
  | .vlist [] => some []
  | .vlist (_ :: _) => none
  | .vdict [] => some []
  | .vdict (_ :: _) => none

/-- The rule entry for a placeholder id: `rule_by_pid` (app.py lines
85–88) is a dict keyed by the (integer) placeholder id, built over the
descriptor's `placeholders` in order, so lookup is last-write-wins. -/
def rule_by_pid (m : Metadata) (layout_name : PyStr) (pid : Int) :
    Option PlaceholderRule :=
  match layouts_by_name m (normName layout_name) with
  | none => none
  | some l => (l.placeholders.filter (fun ph => ph.id == pid)).getLast?

/-- Model of `fill_placeholders` (app.py lines 83–105), as called inside
`build_pptx_from_plan`'s `try/except` (lines 276–280): the loop over the
slide's placeholder shapes writes texts until it either finishes or a
Python exception is raised, in which case the texts written so far are
kept (the exception is swallowed by the caller).  `items` is the spec's
`placeholders` value; `key in items` on a non-dict follows Python
membership (substring on strings, element equality on lists — where only
string elements can equal the string key — and a `TypeError` otherwise). -/
def fill_placeholders (m : Metadata) (layout_name : PyStr) (items : PVal) :
    List Int → List (Int × PyStr)
  | [] => []
  | pid :: rest =>
    let key := intToPyStr pid
    match items with
    | .vdict d =>
      match dget d key with
      | none => fill_placeholders m layout_name items rest
      | some v =>
        match itemText v with
        | none => []
        | some t =>
          let rule := rule_by_pid m layout_name pid
          let rule_desc := (rule.map (·.content_description)).getD []
          let maxchars := rule.bind (·.maxchars)
          (pid, clip_text (apply_content_rule t rule_desc) maxchars) ::
            fill_placeholders m layout_name items rest
    | .vstr s =>
      if pyIn key s then [] else fill_placeholders m layout_name items rest
    | .vlist l =>
      if l.any (fun v => match v with | .vstr s => s == key | _ => false) then []
      else fill_placeholders m layout_name items rest
    | _ => []

/-- Model of `add_thank_you_slide` (app.py lines 108–111), as called inside the
`try/except` of `build_pptx_from_plan` (lines 283–286): append a slide
from the template's last layout, unmodified; on a template with no
layouts the `IndexError` is swallowed and nothing is appended. -/
def add_thank_you_slide (tmpl : List SlideLayout) (deck : List DeckSlide) :
    List DeckSlide :=
  match tmpl.getLast? with
  | none => deck
  | some last => deck ++ [⟨last, []⟩]

/-- The slide-building loop of `build_pptx_from_plan` (app.py lines
269–280): specs with a falsy `layout_name` are skipped (`continue`);
otherwise the layout is resolved and a slide added, with placeholder
filling best-effort.  `none` models an uncaught exception (non-dict spec,
truthy non-string `layout_name`, or an empty template making
`prs.slide_layouts[0]` raise inside `find_layout`). -/
def buildSlides (m : Metadata) (tmpl : List SlideLayout) :
    List PVal → Option (List DeckSlide)
  | [] => some []
  | spec :: rest => do
    match spec with
    | .vdict d =>
      let lnVal := (dget d (strL "layout_name")).getD .vnone
      if pyTruthy lnVal then do
        let ln ← match lnVal with | .vstr s => some s | _ => none
        let layout ← find_layout tmpl ln
        let items := (dget d (strL "placeholders")).getD (.vdict [])
        let texts := fill_placeholders m ln items layout.phIds
        let restSlides ← buildSlides m tmpl rest
        pure (⟨layout, texts⟩ :: restSlides)
      else
        buildSlides m tmpl rest
    | _ => none

/-- Model of `build_pptx_from_plan` (app.py lines 265–292), restricted to the deck
it assembles (the topic, filename and save step are filesystem I/O out of
scope): build one slide per plan spec with a truthy layout name, then
append the closing slide. -/
def build_pptx_from_plan (m : Metadata) (tmpl : List SlideLayout)
    (plan : PyDict) : Option (List DeckSlide) := do
  let specs ← asSlideList ((dget plan (strL "slides")).getD (.vlist []))
  let built ← buildSlides m tmpl specs
  pure (add_thank_you_slide tmpl built)

/-! ## Basic lemmas about the dict model -/

theorem dget_dictSet_self (d : PyDict) (k : PyStr) (v : PVal) :
    dget (dictSet d k v) k = some v := by
  induction d with
  | nil => simp [dictSet, dget]
  | cons p rest ih =>
    by_cases h : (p.1 == k) = true
    · simp [dictSet, dget, h]
    · simp [dictSet, dget, h, ih]

theorem dget_dictSet_ne (d : PyDict) (k k' : PyStr) (v : PVal) (h : k' ≠ k) :
    dget (dictSet d k v) k' = dget d k' := by
  induction d with
  | nil =>
    have : (k == k') = false := by
      simpa [beq_eq_false_iff_ne] using fun e => h e.symm
    simp [dictSet, dget, this]
  | cons p rest ih =>
    by_cases hp : (p.1 == k) = true
    · have hpk : p.1 = k := eq_of_beq hp
      have : (k == k') = false := by
        simpa [beq_eq_false_iff_ne] using fun e => h e.symm
      simp [dictSet, dget, hp, this, hpk]
    · simp [dictSet, dget, hp, ih]

theorem dget_dictSet_isSome (d : PyDict) (k k' : PyStr) (v : PVal)
    (h : (dget (dictSet d k v) k').isSome = true) :
    k' = k ∨ (dget d k').isSome = true := by
  by_cases hk : k' = k
  · exact Or.inl hk
  · right; rwa [dget_dictSet_ne d k k' v hk] at h

theorem dictSet_dictSet (d : PyDict) (k : PyStr) (v : PVal) :
    dictSet (dictSet d k v) k v = dictSet d k v := by
  induction d with
  | nil => simp [dictSet]
  | cons p rest ih =>
    by_cases h : (p.1 == k) = true
    · simp [dictSet, h]
    · simp [dictSet, h, ih]

/-! ## Lemmas about the enforcement pipeline -/

theorem filterIgnored_mem (ig : List PyStr) (l : List PVal) :
    ∀ keep, filterIgnored ig l = some keep →
      ∀ s ∈ keep, s ∈ l ∧ ∃ n, slideNormName s = some n ∧ n ∉ ig := by
  induction l with
  | nil =>
    intro keep h
    simp [filterIgnored] at h
    subst h; intro s hs; cases hs
  | cons a rest ih =>
    intro keep h
    simp only [filterIgnored, Option.bind_eq_bind, Option.bind_eq_some] at h
    obtain ⟨n, hn, r, hr, hres⟩ := h
    by_cases hin : n ∈ ig
    · rw [if_pos hin] at hres
      have hrk : r = keep := Option.some.inj hres
      subst hrk
      intro s hs
      obtain ⟨hmem, hprop⟩ := ih r hr s hs
      exact ⟨List.mem_cons_of_mem _ hmem, hprop⟩
    · rw [if_neg hin] at hres
      have hrk : a :: r = keep := Option.some.inj hres
      subst hrk
      intro s hs
      rcases List.mem_cons.mp hs with h1 | h1
      · subst h1; exact ⟨List.mem_cons_self _ _, n, hn, hin⟩
      · obtain ⟨hmem, hprop⟩ := ih r hr s h1
        exact ⟨List.mem_cons_of_mem _ hmem, hprop⟩

theorem filterIgnored_of_all (ig : List PyStr) (l : List PVal)
    (h : ∀ s ∈ l, ∃ n, slideNormName s = some n ∧ n ∉ ig) :
    filterIgnored ig l = some l := by
  induction l with
  | nil => rfl
  | cons a rest ih =>
    obtain ⟨n, hn, hnin⟩ := h a (List.mem_cons_self _ _)
    have hrest := ih (fun s hs => h s (List.mem_cons_of_mem _ hs))
    simp [filterIgnored, hn, hrest, hnin]

theorem namesOf_total (l : List PVal)
    (h : ∀ s ∈ l, ∃ n, slideNormName s = some n) :
    ∃ ns, namesOf l = some ns := by
  induction l with
  | nil => exact ⟨[], rfl⟩
  | cons a rest ih =>
    obtain ⟨n, hn⟩ := h a (List.mem_cons_self _ _)
    obtain ⟨ns, hns⟩ := ih (fun s hs => h s (List.mem_cons_of_mem _ hs))
    exact ⟨n :: ns, by simp [namesOf, hn, hns]⟩

theorem namesOf_mem (l : List PVal) :
    ∀ ns, namesOf l = some ns →
      ∀ s ∈ l, ∀ n, slideNormName s = some n → n ∈ ns := by
  induction l with
  | nil => intro ns h s hs; cases hs
  | cons a rest ih =>
    intro ns h s hs n hn
    simp only [namesOf, Option.bind_eq_bind, Option.bind_eq_some] at h
    obtain ⟨m, hm, ms, hms, hcons⟩ := h
    have : m :: ms = ns := Option.some.inj hcons
    subst this
    rcases List.mem_cons.mp hs with h1 | h1
    · subst h1; rw [hn] at hm
      have : m = n := (Option.some.inj hm).symm
      subst this
      exact List.mem_cons_self _ _
    · exact List.mem_cons_of_mem _ (ih ms hms s h1 n hn)

theorem namesOf_exists (l : List PVal) :
    ∀ ns, namesOf l = some ns →
      ∀ n ∈ ns, ∃ s ∈ l, slideNormName s = some n := by
  induction l with
  | nil =>
    intro ns h n hn
    simp [namesOf] at h
    subst h; cases hn
  | cons a rest ih =>
    intro ns h n hn
    simp only [namesOf, Option.bind_eq_bind, Option.bind_eq_some] at h
    obtain ⟨m, hm, ms, hms, hcons⟩ := h
    have : m :: ms = ns := Option.some.inj hcons
    subst this
    rcases List.mem_cons.mp hn with h1 | h1
    · subst h1; exact ⟨a, List.mem_cons_self _ _, hm⟩
    · obtain ⟨s, hs, hsn⟩ := ih ms hms n h1
      exact ⟨s, List.mem_cons_of_mem _ hs, hsn⟩

theorem slideNormName_synthSlide (m : Metadata) (must : PyStr) :
    slideNormName (synthSlide m must) = some (normName must) := rfl

theorem addMusts_cons (m : Metadata) (present : List PyStr) (a : PyStr)
    (rest : List PyStr) (slides : List PVal) :
    addMusts m present (a :: rest) slides =
      addMusts m present rest
        (if normName a ∈ present then slides else slides ++ [synthSlide m a]) := by
  by_cases h : normName a ∈ present <;> simp [addMusts, h]

theorem mem_addMusts_of_mem (m : Metadata) (present musts : List PyStr) :
    ∀ slides, ∀ s ∈ slides, s ∈ addMusts m present musts slides := by
  induction musts with
  | nil => intro slides s hs; exact hs
  | cons must rest ih =>
    intro slides s hs
    rw [addMusts_cons]
    by_cases h : normName must ∈ present
    · rw [if_pos h]; exact ih slides s hs
    · rw [if_neg h]; exact ih _ s (List.mem_append_left _ hs)

theorem synthSlide_mem_addMusts (m : Metadata) (present musts : List PyStr)
    (must : PyStr) (hmust : must ∈ musts) (habsent : normName must ∉ present) :
    ∀ slides, synthSlide m must ∈ addMusts m present musts slides := by
  induction musts with
  | nil => cases hmust
  | cons a rest ih =>
    intro slides
    rw [addMusts_cons]
    rcases List.mem_cons.mp hmust with h1 | h1
    · subst h1
      rw [if_neg habsent]
      exact mem_addMusts_of_mem m present rest _ _
        (List.mem_append_right _ (List.mem_singleton.mpr rfl))
    · by_cases h : normName a ∈ present
      · rw [if_pos h]; exact ih h1 slides
      · rw [if_neg h]; exact ih h1 _

theorem mem_addMusts_cases (m : Metadata) (present musts : List PyStr) :
    ∀ slides, ∀ s ∈ addMusts m present musts slides,
      s ∈ slides ∨ ∃ must ∈ musts, normName must ∉ present ∧ s = synthSlide m must := by
  induction musts with
  | nil => intro slides s hs; exact Or.inl hs
  | cons a rest ih =>
    intro slides s hs
    rw [addMusts_cons] at hs
    by_cases h : normName a ∈ present
    · rw [if_pos h] at hs
      rcases ih slides s hs with h1 | ⟨must, hm1, hm2, hm3⟩
      · exact Or.inl h1
      · exact Or.inr ⟨must, List.mem_cons_of_mem _ hm1, hm2, hm3⟩
    · rw [if_neg h] at hs
      rcases ih _ s hs with h1 | ⟨must, hm1, hm2, hm3⟩
      · rcases List.mem_append.mp h1 with h2 | h2
        · exact Or.inl h2
        · exact Or.inr ⟨a, List.mem_cons_self _ _, h, List.mem_singleton.mp h2⟩
      · exact Or.inr ⟨must, List.mem_cons_of_mem _ hm1, hm2, hm3⟩

theorem addMusts_id (m : Metadata) (present musts : List PyStr)
    (h : ∀ must ∈ musts, normName must ∈ present) :
    ∀ slides, addMusts m present musts slides = slides := by
  induction musts with
  | nil => intro slides; rfl
  | cons a rest ih =>
    intro slides
    rw [addMusts_cons, if_pos (h a (List.mem_cons_self _ _))]
    exact ih (fun must hm => h must (List.mem_cons_of_mem _ hm)) slides

/-- Decomposition of a successful run of `enforce_plan_rules` into its
pipeline stages. -/
theorem enforce_decomp (m : Metadata) (plan r : PyDict)
    (h : enforce_plan_rules m plan = some r) :
    ∃ slides0 keep present,
      asSlideList ((dget plan (strL "slides")).getD (.vlist [])) = some slides0 ∧
      filterIgnored (ignoreSet m) slides0 = some keep ∧
      namesOf keep = some present ∧
      r = dictSet plan (strL "slides")
        (.vlist (addMusts m present (must_have_names m) keep)) := by
  simp only [enforce_plan_rules, Option.bind_eq_bind, Option.bind_eq_some] at h
  obtain ⟨slides0, h0, keep, h1, present, h2, h3⟩ := h
  exact ⟨slides0, keep, present, h0, h1, h2, (Option.some.inj h3).symm⟩

/-- The `slides` entry of an enforcement result, as a list. -/
def resultSlides (r : PyDict) : List PVal :=
  match dget r (strL "slides") with
  | some (.vlist l) => l
  | _ => []

theorem resultSlides_dictSet (plan : PyDict) (slides : List PVal) :
    resultSlides (dictSet plan (strL "slides") (.vlist slides)) = slides := by
  unfold resultSlides
  rw [dget_dictSet_self]

/-! ## Concrete fixtures used by counterexamples and witnesses -/

/-- Metadata with a single mandatory layout `"Conclusion"` whose
placeholder 7 has a description containing "title" and "synonym"
(the scenario of spec §8.7). -/
def conclusionMeta : Metadata :=
  ⟨[⟨strL "Conclusion", strL "MUST HAVE", [⟨7, strL "title synonym", none⟩]⟩]⟩

/-- Metadata with a single layout whose description contains both the
"must have" and the "ignore" marker. -/
def bothMarkerMeta : Metadata :=
  ⟨[⟨strL "Bad", strL "MUST HAVE but IGNORE this", []⟩]⟩

/-- Metadata with two mandatory layouts, the first of which is also
ignore-marked. -/
def twoMustMeta : Metadata :=
  ⟨[⟨strL "A", strL "must have ignore", []⟩, ⟨strL "B", strL "must have", []⟩]⟩

/-- Metadata with one mandatory layout that declares no placeholders. -/
def emptyPhMeta : Metadata :=
  ⟨[⟨strL "X", strL "must have", []⟩]⟩

/-- A one-layout template. -/
def closingTmpl : List SlideLayout := [⟨some (strL "Title Slide"), [0, 1]⟩]

/-- A two-layout template. -/
def twoLayoutTmpl : List SlideLayout :=
  [⟨some (strL "Title and Content"), []⟩, ⟨some (strL "Closing"), []⟩]

/-! ## Claim C4 — clip correctness -/

/-- C4: the claim "for every text T, description desc and positive N <
length T, casing followed by clipping at N returns exactly the first N
characters of the cased text (length N)" is false on the code: with
`desc = "sentence case"` the casing step strips `T`, so the cased text
can be shorter than N and no clipping happens.  Concretely `T = "  ab"`,
`N = 3 < 4 = len(T)`, and the transform returns `"Ab"` of length 2. -/
theorem c4_clip_cex :
    0 < 3 ∧ 3 < (strL "  ab").length ∧
    (clip_text (apply_content_rule (strL "  ab") (strL "sentence case"))
      (some 3)).length ≠ 3 := by
  decide

/-- C4 (amended): for every text T, description desc and positive N
strictly less than the length of the *cased* text, clipping at N returns
exactly the first N characters of the cased text, of length exactly N. -/
theorem c4_clip_amended (T desc : PyStr) (N : Nat) (h1 : 0 < N)
    (h2 : N < (apply_content_rule T desc).length) :
    clip_text (apply_content_rule T desc) (some (N : Int)) =
      (apply_content_rule T desc).take N ∧
    (clip_text (apply_content_rule T desc) (some (N : Int))).length = N := by
  have hcond : (N : Int) > 0 ∧ ((apply_content_rule T desc).length : Int) > (N : Int) := by
    constructor
    · exact_mod_cast h1
    · exact_mod_cast h2
  have h3 : clip_text (apply_content_rule T desc) (some (N : Int)) =
      (apply_content_rule T desc).take N := by
    simp [clip_text, hcond]
  refine ⟨h3, ?_⟩
  rw [h3, List.length_take]
  omega

/-- Witness for C4 (amended) at `T = "abcd"`, `desc = ""`, `N = 2`. -/
theorem c4_clip_witness :
    clip_text (apply_content_rule (strL "abcd") (strL "")) (some (2 : Int)) =
      (apply_content_rule (strL "abcd") (strL "")).take 2 ∧
    (clip_text (apply_content_rule (strL "abcd") (strL "")) (some (2 : Int))).length = 2 :=
  c4_clip_amended (strL "abcd") (strL "") 2 (by decide) (by decide)

/-! ## Claim C8 — casing precedence -/

/-- C8: for every text and every description containing an all-caps
marker ("all-caps" or "all caps") and the "title case" marker, the
transform uppercases: the all-caps branch is checked first. -/
theorem c8_casing_precedence (t d : PyStr)
    (h1 : pyIn (strL "all-caps") (pyLower d) = true ∨
          pyIn (strL "all caps") (pyLower d) = true)
    ( _hboth : pyIn (strL "title case") (pyLower d) = true) :
    apply_content_rule t d = pyUpper t := by
  unfold apply_content_rule
  rcases h1 with h | h <;> simp [h]

/-- Witness for C8 at `d = "all caps title case"`, `t = "x y"`. -/
theorem c8_casing_witness :
    pyIn (strL "all caps") (pyLower (strL "all caps title case")) = true ∧
    pyIn (strL "title case") (pyLower (strL "all caps title case")) = true ∧
    apply_content_rule (strL "x y") (strL "all caps title case") =
      pyUpper (strL "x y") :=
  ⟨by decide, by decide,
    c8_casing_precedence (strL "x y") (strL "all caps title case")
      (Or.inr (by decide)) (by decide)⟩

/-! ## Claim C6 — resolver totality and order -/

/-- C6: on a non-empty template, `find_layout` always returns a layout,
and the choice follows the documented order: the first exact normalized
match; else (for a non-empty normalized request — `layoutNameHas` is
false on an empty target) the first containment match; else the first
declared layout. -/
theorem c6_resolver_order (tmpl : List SlideLayout) (name : PyStr)
    (h : tmpl ≠ []) :
    (∃ l, find_layout tmpl name = some l) ∧
    (∀ e, tmpl.find? (layoutNameIs (normName name)) = some e →
      find_layout tmpl name = some e) ∧
    (tmpl.find? (layoutNameIs (normName name)) = none →
      ∀ s, tmpl.find? (layoutNameHas (normName name)) = some s →
        find_layout tmpl name = some s) ∧
    (tmpl.find? (layoutNameIs (normName name)) = none →
      tmpl.find? (layoutNameHas (normName name)) = none →
      find_layout tmpl name = tmpl.head?) := by
  refine ⟨?_, ?_, ?_, ?_⟩
  · cases he : tmpl.find? (layoutNameIs (normName name)) with
    | some e => exact ⟨e, by simp [find_layout, he]⟩
    | none =>
      cases hs : tmpl.find? (layoutNameHas (normName name)) with
      | some s => exact ⟨s, by simp [find_layout, he, hs]⟩
      | none =>
        cases tmpl with
        | nil => exact absurd rfl h
        | cons a t => exact ⟨a, by simp [find_layout, he, hs]⟩
  · intro e he; simp [find_layout, he]
  · intro he s hs; simp [find_layout, he, hs]
  · intro he hs; simp [find_layout, he, hs]

/-- Witness for C6: a name matching nothing resolves to the first
declared layout. -/
theorem c6_resolver_witness :
    find_layout twoLayoutTmpl (strL "zzz") = twoLayoutTmpl.head? :=
  (c6_resolver_order twoLayoutTmpl (strL "zzz") (by decide)).2.2.2
    (by decide) (by decide)

/-! ## Claim C7 — synthesize-summary scenario -/

/-- C7: with metadata declaring the single mandatory layout
`"Conclusion"` whose placeholder 7 is described with "title" and
"synonym", enforcing the empty plan appends exactly the slide
`{layout_name: "Conclusion", placeholders: {"7": "SUMMARY"}}`. -/
theorem c7_synth_summary :
    enforce_plan_rules conclusionMeta [] =
      some [(strL "slides", .vlist [.vdict
        [(strL "layout_name", .vstr (strL "Conclusion")),
         (strL "placeholders", .vdict [(strL "7", .vstr (strL "SUMMARY"))])]])] := rfl

/-! ## Claim C1 — forbidden exclusion -/

/-- C1: the claim "no slide of the enforced plan has a normalized layout
name in the forbidden set, with forbidden taking precedence when a
description carries both markers" is false on the code: removal runs
*before* mandatory insertion, so a both-marker layout is filtered out and
then re-synthesized.  Concretely, enforcing the empty plan against
metadata whose only layout "Bad" is marked both "MUST HAVE" and "IGNORE"
yields a plan containing a slide whose normalized name "bad" is in the
forbidden set. -/
theorem c1_forbidden_cex :
    enforce_plan_rules bothMarkerMeta [] =
      some [(strL "slides", .vlist [synthSlide bothMarkerMeta (strL "Bad")])] ∧
    slideNormName (synthSlide bothMarkerMeta (strL "Bad")) = some (strL "bad") ∧
    strL "bad" ∈ ignoreSet bothMarkerMeta := by
  refine ⟨rfl, rfl, ?_⟩
  decide

/-- C1 (amended): no slide of the enforced plan has a normalized layout
name in the forbidden set *unless* that name is also a (normalized)
mandatory name — i.e. mandatory insertion, not forbidden removal, wins
the tie-break for both-marker layouts. -/
theorem c1_forbidden_amended (m : Metadata) (plan r : PyDict)
    (h : enforce_plan_rules m plan = some r) :
    ∀ s ∈ resultSlides r, ∀ n, slideNormName s = some n →
      n ∈ ignoreSet m → n ∈ (must_have_names m).map normName := by
  obtain ⟨slides0, keep, present, h0, h1, h2, h3⟩ := enforce_decomp m plan r h
  subst h3
  rw [resultSlides_dictSet]
  intro s hs n hn hig
  rcases mem_addMusts_cases m present (must_have_names m) keep s hs with
    hk | ⟨must, hm1, _, hm3⟩
  · obtain ⟨_, n', hn', hnotig⟩ := filterIgnored_mem (ignoreSet m) slides0 keep h1 s hk
    rw [hn] at hn'
    have : n = n' := Option.some.inj hn'
    subst this
    exact absurd hig hnotig
  · subst hm3
    rw [slideNormName_synthSlide] at hn
    have : normName must = n := Option.some.inj hn
    subst this
    exact List.mem_map.mpr ⟨must, hm1, rfl⟩

/-- Witness for C1 (amended): the re-synthesized forbidden name "bad"
is indeed a normalized mandatory name. -/
theorem c1_forbidden_witness :
    strL "bad" ∈ (must_have_names bothMarkerMeta).map normName := by
  have happ := c1_forbidden_amended bothMarkerMeta []
    [(strL "slides", .vlist [synthSlide bothMarkerMeta (strL "Bad")])] rfl
  refine happ (synthSlide bothMarkerMeta (strL "Bad")) ?_ (strL "bad") rfl (by decide)
  rw [show resultSlides [(strL "slides", PVal.vlist [synthSlide bothMarkerMeta (strL "Bad")])]
      = [synthSlide bothMarkerMeta (strL "Bad")] from rfl]
  exact List.mem_singleton.mpr rfl

/-! ## Claim C2 — mandatory presence -/

/-- C2: after a successful run of enforcement, every must-have layout
name of the metadata appears, under normalization, as the layout name of
at least one slide of the result — also when the plan is empty. -/
theorem c2_mandatory_presence (m : Metadata) (plan r : PyDict)
    (h : enforce_plan_rules m plan = some r) :
    ∀ must ∈ must_have_names m, ∃ s ∈ resultSlides r,
      slideNormName s = some (normName must) := by
  obtain ⟨slides0, keep, present, h0, h1, h2, h3⟩ := enforce_decomp m plan r h
  subst h3
  rw [resultSlides_dictSet]
  intro must hmust
  by_cases hp : normName must ∈ present
  · obtain ⟨s, hs, hsn⟩ := namesOf_exists keep present h2 (normName must) hp
    exact ⟨s, mem_addMusts_of_mem m present (must_have_names m) keep s hs, hsn⟩
  · exact ⟨synthSlide m must,
      synthSlide_mem_addMusts m present (must_have_names m) must hmust hp keep,
      slideNormName_synthSlide m must⟩

/-- Witness for C2 at `conclusionMeta` and the empty plan. -/
theorem c2_mandatory_witness :
    ∃ s ∈ resultSlides [(strL "slides", PVal.vlist [.vdict
        [(strL "layout_name", .vstr (strL "Conclusion")),
         (strL "placeholders", .vdict [(strL "7", .vstr (strL "SUMMARY"))])]])],
      slideNormName s = some (normName (strL "Conclusion")) :=
  c2_mandatory_presence conclusionMeta [] _ rfl (strL "Conclusion") (by decide)

/-! ## Claim C9 — frame property of enforcement -/

/-- C9: enforcement only replaces the `"slides"` entry of the plan dict:
every other key keeps its binding, and the result has no keys beyond the
plan's keys and `"slides"`. -/
theorem c9_frame (m : Metadata) (plan r : PyDict)
    (h : enforce_plan_rules m plan = some r) :
    (∀ k, k ≠ strL "slides" → dget r k = dget plan k) ∧
    (∀ k, (dget r k).isSome = true →
      k = strL "slides" ∨ (dget plan k).isSome = true) := by
  obtain ⟨slides0, keep, present, h0, h1, h2, h3⟩ := enforce_decomp m plan r h
  subst h3
  exact ⟨fun k hk => dget_dictSet_ne plan (strL "slides") k _ hk,
         fun k hk => dget_dictSet_isSome plan (strL "slides") k _ hk⟩

/-- Witness for C9: a `"topic"` entry survives enforcement unchanged. -/
theorem c9_frame_witness :
    dget [(strL "topic", PVal.vstr (strL "Sets")),
          (strL "slides", PVal.vlist [.vdict
            [(strL "layout_name", .vstr (strL "Conclusion")),
             (strL "placeholders", .vdict [(strL "7", .vstr (strL "SUMMARY"))])]])]
        (strL "topic") =
      dget [(strL "topic", PVal.vstr (strL "Sets"))] (strL "topic") :=
  (c9_frame conclusionMeta [(strL "topic", PVal.vstr (strL "Sets"))] _ rfl).1
    (strL "topic") (by decide)

/-! ## Claim C10 — synthesized placeholder mappings -/

theorem mem_dictSet_cases (d : PyDict) (k : PyStr) (v : PVal) :
    ∀ q ∈ dictSet d k v, q = (k, v) ∨ q ∈ d := by
  induction d with
  | nil =>
    intro q hq
    rcases List.mem_singleton.mp hq with h
    exact Or.inl h
  | cons p rest ih =>
    intro q hq
    by_cases h : (p.1 == k) = true
    · rw [show dictSet (p :: rest) k v = (k, v) :: rest from by simp [dictSet, h]] at hq
      rcases List.mem_cons.mp hq with h1 | h1
      · exact Or.inl h1
      · exact Or.inr (List.mem_cons_of_mem _ h1)
    · rw [show dictSet (p :: rest) k v = p :: dictSet rest k v from by
        simp [dictSet, h]] at hq
      rcases List.mem_cons.mp hq with h1 | h1
      · exact Or.inr (h1 ▸ List.mem_cons_self _ _)
      · rcases ih q h1 with h2 | h2
        · exact Or.inl h2
        · exact Or.inr (List.mem_cons_of_mem _ h2)

theorem dget_isSome_dictSet_mono (d : PyDict) (k k' : PyStr) (v : PVal)
    (h : (dget d k').isSome = true) :
    (dget (dictSet d k v) k').isSome = true := by
  by_cases hk : k' = k
  · subst hk; rw [dget_dictSet_self]; rfl
  · rwa [dget_dictSet_ne d k k' v hk]

theorem dget_isSome_mem (d : PyDict) (k : PyStr)
    (h : (dget d k).isSome = true) :
    ∃ p ∈ d, p.1 = k := by
  induction d with
  | nil => simp [dget] at h
  | cons p rest ih =>
    by_cases hp : (p.1 == k) = true
    · exact ⟨p, List.mem_cons_self _ _, eq_of_beq hp⟩
    · rw [show dget (p :: rest) k = dget rest k from by simp [dget, hp]] at h
      obtain ⟨q, hq, hq1⟩ := ih h
      exact ⟨q, List.mem_cons_of_mem _ hq, hq1⟩

theorem defaultPhText_cases (ph : PlaceholderRule) :
    defaultPhText ph = strL "SUMMARY" ∨ defaultPhText ph = strL "TOPIC" ∨
    defaultPhText ph = strL "Auto-generated content about the topic." := by
  by_cases h1 : (pyIn (strL "title") (pyLower ph.content_description) &&
      !pyIn (strL "summary") (pyLower ph.content_description)) = true
  · by_cases h2 : pyIn (strL "synonym") (pyLower ph.content_description) = true
    · exact Or.inl (by simp [defaultPhText, h1, h2])
    · exact Or.inr (Or.inl (by simp [defaultPhText, h1, h2]))
  · exact Or.inr (Or.inr (by simp [defaultPhText, h1]))

theorem synthFold_mem (phs : List PlaceholderRule) :
    ∀ acc, ∀ q ∈ phs.foldl
      (fun acc ph => dictSet acc (intToPyStr ph.id) (.vstr (defaultPhText ph))) acc,
      q ∈ acc ∨ ∃ ph ∈ phs, q = (intToPyStr ph.id, .vstr (defaultPhText ph)) := by
  induction phs with
  | nil => intro acc q hq; exact Or.inl hq
  | cons ph rest ih =>
    intro acc q hq
    rcases ih _ q hq with h1 | ⟨ph', hp1, hp2⟩
    · rcases mem_dictSet_cases acc (intToPyStr ph.id) (.vstr (defaultPhText ph)) q h1 with
        h2 | h2
      · exact Or.inr ⟨ph, List.mem_cons_self _ _, h2⟩
      · exact Or.inl h2
    · exact Or.inr ⟨ph', List.mem_cons_of_mem _ hp1, hp2⟩

theorem synthFold_isSome_mono (phs : List PlaceholderRule) :
    ∀ acc k, (dget acc k).isSome = true →
      (dget (phs.foldl
        (fun acc ph => dictSet acc (intToPyStr ph.id) (.vstr (defaultPhText ph))) acc)
        k).isSome = true := by
  induction phs with
  | nil => intro acc k h; exact h
  | cons b brest ih =>
    intro acc k h
    rw [List.foldl_cons]
    exact ih _ k (dget_isSome_dictSet_mono acc (intToPyStr b.id) k
      (.vstr (defaultPhText b)) h)

theorem synthFold_covers (phs : List PlaceholderRule) :
    ∀ acc, ∀ ph ∈ phs,
      (dget (phs.foldl
        (fun acc ph => dictSet acc (intToPyStr ph.id) (.vstr (defaultPhText ph))) acc)
        (intToPyStr ph.id)).isSome = true := by
  induction phs with
  | nil => intro acc ph hph; cases hph
  | cons a rest ih =>
    intro acc ph hph
    rcases List.mem_cons.mp hph with h1 | h1
    · subst h1
      rw [List.foldl_cons]
      exact synthFold_isSome_mono rest _ _ (by rw [dget_dictSet_self]; rfl)
    · rw [List.foldl_cons]
      exact ih _ ph h1

/-- C10: the claim's parenthetical "(an empty mapping only when no
descriptor is indexed under that name)" is false on the code: a mandatory
layout whose descriptor declares *no* placeholders is synthesized with an
empty mapping even though its descriptor is indexed. -/
theorem c10_synth_cex :
    enforce_plan_rules emptyPhMeta [] =
      some [(strL "slides", .vlist [.vdict
        [(strL "layout_name", .vstr (strL "X")),
         (strL "placeholders", .vdict [])]])] ∧
    (layouts_by_name emptyPhMeta (normName (strL "X"))).isSome = true := by
  refine ⟨rfl, ?_⟩
  decide

/-- C10 (amended): every slide of an enforced plan either already occurred
in the plan's slides list, or is a slide synthesized for a must-have name,
whose placeholder mapping is empty when no descriptor is indexed under
the normalized name, and otherwise has exactly the descriptor's
decimal-string placeholder ids as keys (both inclusions) with every value
one of `"SUMMARY"`, `"TOPIC"`, or the generic sentence; the mapping may
also be empty when the descriptor declares no placeholders. -/
theorem c10_synth_amended (m : Metadata) (plan r : PyDict)
    (h : enforce_plan_rules m plan = some r) :
    ∀ s ∈ resultSlides r,
      (∃ slides0,
        asSlideList ((dget plan (strL "slides")).getD (.vlist [])) = some slides0 ∧
        s ∈ slides0) ∨
      ∃ must ∈ must_have_names m, s = synthSlide m must ∧
        ((layouts_by_name m (normName must) = none ∧
          synthPlaceholders m (normName must) = []) ∨
         ∃ L, layouts_by_name m (normName must) = some L ∧
           (∀ p ∈ synthPlaceholders m (normName must),
              (∃ ph ∈ L.placeholders, p.1 = intToPyStr ph.id) ∧
              (p.2 = .vstr (strL "SUMMARY") ∨ p.2 = .vstr (strL "TOPIC") ∨
               p.2 = .vstr (strL "Auto-generated content about the topic."))) ∧
           (∀ ph ∈ L.placeholders, ∃ p ∈ synthPlaceholders m (normName must),
              p.1 = intToPyStr ph.id)) := by
  obtain ⟨slides0, keep, present, h0, h1, h2, h3⟩ := enforce_decomp m plan r h
  subst h3
  rw [resultSlides_dictSet]
  intro s hs
  rcases mem_addMusts_cases m present (must_have_names m) keep s hs with
    hk | ⟨must, hm1, _, hm3⟩
  · exact Or.inl ⟨slides0, h0, (filterIgnored_mem (ignoreSet m) slides0 keep h1 s hk).1⟩
  · refine Or.inr ⟨must, hm1, hm3, ?_⟩
    cases hL : layouts_by_name m (normName must) with
    | none =>
      exact Or.inl ⟨rfl, by unfold synthPlaceholders; rw [hL]⟩
    | some L =>
      refine Or.inr ⟨L, rfl, ?_, ?_⟩
      · intro p hp
        rw [show synthPlaceholders m (normName must) = L.placeholders.foldl
          (fun acc ph => dictSet acc (intToPyStr ph.id) (.vstr (defaultPhText ph))) []
          from by unfold synthPlaceholders; rw [hL]] at hp
        rcases synthFold_mem L.placeholders [] p hp with h4 | ⟨ph, hph, hpe⟩
        · cases h4
        · subst hpe
          exact ⟨⟨ph, hph, rfl⟩, by
            rcases defaultPhText_cases ph with h5 | h5 | h5 <;> rw [h5]
            · exact Or.inl rfl
            · exact Or.inr (Or.inl rfl)
            · exact Or.inr (Or.inr rfl)⟩
      · intro ph hph
        have hsome : (dget (synthPlaceholders m (normName must))
            (intToPyStr ph.id)).isSome = true := by
          rw [show synthPlaceholders m (normName must) = L.placeholders.foldl
            (fun acc ph => dictSet acc (intToPyStr ph.id) (.vstr (defaultPhText ph))) []
            from by unfold synthPlaceholders; rw [hL]]
          exact synthFold_covers L.placeholders [] ph hph
        exact dget_isSome_mem _ _ hsome

/-- Witness for C10 (amended) at `conclusionMeta` and the empty plan,
instantiated at the synthesized conclusion slide. -/
theorem c10_synth_witness :
    (∃ slides0,
      asSlideList ((dget ([] : PyDict) (strL "slides")).getD (.vlist [])) = some slides0 ∧
      synthSlide conclusionMeta (strL "Conclusion") ∈ slides0) ∨
    ∃ must ∈ must_have_names conclusionMeta,
      synthSlide conclusionMeta (strL "Conclusion") = synthSlide conclusionMeta must ∧
      ((layouts_by_name conclusionMeta (normName must) = none ∧
        synthPlaceholders conclusionMeta (normName must) = []) ∨
       ∃ L, layouts_by_name conclusionMeta (normName must) = some L ∧
         (∀ p ∈ synthPlaceholders conclusionMeta (normName must),
            (∃ ph ∈ L.placeholders, p.1 = intToPyStr ph.id) ∧
            (p.2 = .vstr (strL "SUMMARY") ∨ p.2 = .vstr (strL "TOPIC") ∨
             p.2 = .vstr (strL "Auto-generated content about the topic."))) ∧
         (∀ ph ∈ L.placeholders, ∃ p ∈ synthPlaceholders conclusionMeta (normName must),
            p.1 = intToPyStr ph.id)) := by
  have happ := c10_synth_amended conclusionMeta []
    [(strL "slides", .vlist [synthSlide conclusionMeta (strL "Conclusion")])] rfl
  refine happ (synthSlide conclusionMeta (strL "Conclusion")) ?_
  rw [show resultSlides
      [(strL "slides", PVal.vlist [synthSlide conclusionMeta (strL "Conclusion")])]
      = [synthSlide conclusionMeta (strL "Conclusion")] from rfl]
  exact List.mem_singleton.mpr rfl

/-! ## Claim C5 — idempotence of enforcement -/

/-- C5: the claim `enforce(enforce(P, M), M) == enforce(P, M)` is false on
the code when a layout carries both markers: with metadata declaring
must-have layouts "A" (also ignore-marked) and "B", the first run of
enforcement on the empty plan appends the synthesized slides in the order
[A, B]; the second run filters the forbidden "A" back out and re-appends
it *after* B, so the two results differ (already in the first slide's
layout name). -/
theorem c5_idem_cex :
    (enforce_plan_rules twoMustMeta []).bind (enforce_plan_rules twoMustMeta) ≠
      enforce_plan_rules twoMustMeta [] := by
  intro h
  have h2 := congrArg
    (fun o => o.bind (fun r => (resultSlides r).head?.bind slideNormName)) h
  exact absurd h2 (by decide)

/-- C5 (amended): enforcement is idempotent whenever no normalized
must-have name lies in the forbidden set (in particular whenever no
layout description carries both markers): if `enforce(P, M) = R` then
`enforce(R, M) = R`. -/
theorem c5_idem_amended (m : Metadata)
    (hdisj : ∀ n ∈ (must_have_names m).map normName, n ∉ ignoreSet m)
    (plan r : PyDict) (h : enforce_plan_rules m plan = some r) :
    enforce_plan_rules m r = some r := by
  obtain ⟨slides0, keep, present, h0, h1, h2, h3⟩ := enforce_decomp m plan r h
  have hallS : ∀ s ∈ addMusts m present (must_have_names m) keep,
      ∃ n, slideNormName s = some n ∧ n ∉ ignoreSet m := by
    intro s hs
    rcases mem_addMusts_cases m present (must_have_names m) keep s hs with
      hk | ⟨must, hm1, _, hm3⟩
    · exact (filterIgnored_mem (ignoreSet m) slides0 keep h1 s hk).2
    · subst hm3
      exact ⟨normName must, slideNormName_synthSlide m must,
        hdisj _ (List.mem_map.mpr ⟨must, hm1, rfl⟩)⟩
  have hfilter : filterIgnored (ignoreSet m) (addMusts m present (must_have_names m) keep)
      = some (addMusts m present (must_have_names m) keep) :=
    filterIgnored_of_all _ _ hallS
  obtain ⟨P2, hP2⟩ := namesOf_total (addMusts m present (must_have_names m) keep)
    (fun s hs => ⟨(hallS s hs).choose, (hallS s hs).choose_spec.1⟩)
  have hmusts : ∀ must ∈ must_have_names m, normName must ∈ P2 := by
    intro must hmust
    by_cases hp : normName must ∈ present
    · obtain ⟨s, hs, hsn⟩ := namesOf_exists keep present h2 _ hp
      exact namesOf_mem _ P2 hP2 s
        (mem_addMusts_of_mem m present (must_have_names m) keep s hs) _ hsn
    · exact namesOf_mem _ P2 hP2 (synthSlide m must)
        (synthSlide_mem_addMusts m present (must_have_names m) must hmust hp keep) _
        (slideNormName_synthSlide m must)
  have haddid : addMusts m P2 (must_have_names m)
      (addMusts m present (must_have_names m) keep)
      = addMusts m present (must_have_names m) keep :=
    addMusts_id m P2 (must_have_names m) hmusts _
  have hr : dget r (strL "slides")
      = some (.vlist (addMusts m present (must_have_names m) keep)) := by
    rw [h3]; exact dget_dictSet_self _ _ _
  unfold enforce_plan_rules
  rw [hr]
  simp only [Option.getD_some, asSlideList, Option.bind_eq_bind, Option.some_bind]
  rw [hfilter]
  simp only [Option.some_bind]
  rw [hP2]
  simp only [Option.some_bind, Option.pure_def]
  rw [haddid, h3]
  exact congrArg some (dictSet_dictSet plan (strL "slides") _)

/-- Witness for C5 (amended) at `conclusionMeta` (whose must-have and
forbidden name sets are disjoint) and the empty plan. -/
theorem c5_idem_witness :
    enforce_plan_rules conclusionMeta
      [(strL "slides", PVal.vlist [.vdict
        [(strL "layout_name", .vstr (strL "Conclusion")),
         (strL "placeholders", .vdict [(strL "7", .vstr (strL "SUMMARY"))])]])] =
    some [(strL "slides", PVal.vlist [.vdict
        [(strL "layout_name", .vstr (strL "Conclusion")),
         (strL "placeholders", .vdict [(strL "7", .vstr (strL "SUMMARY"))])]])] :=
  c5_idem_amended conclusionMeta (by decide) [] _ rfl

/-! ## Claim C3 — deck shape -/

/-- Whether `build_pptx_from_plan` builds a slide for a spec: the spec is
a dict and its `layout_name` value is truthy (the `if not layout_name:
continue` guard, app.py lines 272–273). -/
def truthyName : PVal → Bool
  | .vdict d => pyTruthy ((dget d (strL "layout_name")).getD .vnone)
  | _ => false

/-- The layout a spec resolves to when it is built: for a dict spec with
a non-empty string `layout_name`, the resolver's answer; `none` for
skipped or erroneous specs. -/
def specResolved (tmpl : List SlideLayout) : PVal → Option SlideLayout
  | .vdict d =>
    match (dget d (strL "layout_name")).getD .vnone with
    | .vstr (c :: cs) => find_layout tmpl (c :: cs)
    | _ => none
  | _ => none

theorem buildSlides_props (m : Metadata) (tmpl : List SlideLayout) :
    ∀ specs d, buildSlides m tmpl specs = some d →
      d.map (·.layout) = specs.filterMap (specResolved tmpl) ∧
      d.length = (specs.filter truthyName).length := by
  intro specs
  induction specs with
  | nil =>
    intro d h
    have : [] = d := Option.some.inj h
    subst this
    exact ⟨rfl, rfl⟩
  | cons spec rest ih =>
    intro d h
    cases spec with
    | vdict sd =>
      cases hlv : (dget sd (strL "layout_name")).getD PVal.vnone with
      | vstr s =>
        cases s with
        | nil =>
          rw [show buildSlides m tmpl (.vdict sd :: rest) = buildSlides m tmpl rest
            from by simp [buildSlides, hlv, pyTruthy]] at h
          obtain ⟨ihm, ihl⟩ := ih d h
          have hspec : specResolved tmpl (.vdict sd) = none := by
            simp [specResolved, hlv]
          have htn : truthyName (.vdict sd) = false := by
            simp [truthyName, hlv, pyTruthy]
          constructor
          · simp [List.filterMap_cons, hspec, ihm]
          · simp [List.filter_cons, htn, ihl]
        | cons c cs =>
          rw [show buildSlides m tmpl (.vdict sd :: rest) =
              (find_layout tmpl (c :: cs)).bind (fun layout =>
                (buildSlides m tmpl rest).bind (fun restSlides =>
                  some (⟨layout, fill_placeholders m (c :: cs)
                    ((dget sd (strL "placeholders")).getD (.vdict []))
                    layout.phIds⟩ :: restSlides)))
            from by simp [buildSlides, hlv, pyTruthy]] at h
          cases hfl : find_layout tmpl (c :: cs) with
          | none => rw [hfl] at h; cases h
          | some layout =>
            rw [hfl] at h
            simp only [Option.some_bind] at h
            cases hrest : buildSlides m tmpl rest with
            | none => rw [hrest] at h; cases h
            | some restSlides =>
              rw [hrest] at h
              simp only [Option.some_bind] at h
              have hd : _ :: restSlides = d := Option.some.inj h
              subst hd
              obtain ⟨ihm, ihl⟩ := ih restSlides hrest
              have hspec : specResolved tmpl (.vdict sd) = some layout := by
                simp [specResolved, hlv, hfl]
              have htn : truthyName (.vdict sd) = true := by
                simp [truthyName, hlv, pyTruthy]
              constructor
              · simp [List.filterMap_cons, hspec, ihm]
              · simp [List.filter_cons, htn, ihl]
      | vnone =>
        rw [show buildSlides m tmpl (.vdict sd :: rest) = buildSlides m tmpl rest
          from by simp [buildSlides, hlv, pyTruthy]] at h
        obtain ⟨ihm, ihl⟩ := ih d h
        have hspec : specResolved tmpl (.vdict sd) = none := by
          simp [specResolved, hlv]
        have htn : truthyName (.vdict sd) = false := by
          simp [truthyName, hlv, pyTruthy]
        constructor
        · simp [List.filterMap_cons, hspec, ihm]
        · simp [List.filter_cons, htn, ihl]
      | vint n =>
        by_cases hn : n = 0
        · subst hn
          rw [show buildSlides m tmpl (.vdict sd :: rest) = buildSlides m tmpl rest
            from by simp [buildSlides, hlv, pyTruthy]] at h
          obtain ⟨ihm, ihl⟩ := ih d h
          have hspec : specResolved tmpl (.vdict sd) = none := by
            simp [specResolved, hlv]
          have htn : truthyName (.vdict sd) = false := by
            simp [truthyName, hlv, pyTruthy]
          constructor
          · simp [List.filterMap_cons, hspec, ihm]
          · simp [List.filter_cons, htn, ihl]
        · rw [show buildSlides m tmpl (.vdict sd :: rest) = none
            from by simp [buildSlides, hlv, pyTruthy, hn]] at h
          cases h
      | vlist l =>
        cases l with
        | nil =>
          rw [show buildSlides m tmpl (.vdict sd :: rest) = buildSlides m tmpl rest
            from by simp [buildSlides, hlv, pyTruthy]] at h
          obtain ⟨ihm, ihl⟩ := ih d h
          have hspec : specResolved tmpl (.vdict sd) = none := by
            simp [specResolved, hlv]
          have htn : truthyName (.vdict sd) = false := by
            simp [truthyName, hlv, pyTruthy]
          constructor
          · simp [List.filterMap_cons, hspec, ihm]
          · simp [List.filter_cons, htn, ihl]
        | cons v vs =>
          rw [show buildSlides m tmpl (.vdict sd :: rest) = none
            from by simp [buildSlides, hlv, pyTruthy]] at h
          cases h
      | vdict dd =>
        cases dd with
        | nil =>
          rw [show buildSlides m tmpl (.vdict sd :: rest) = buildSlides m tmpl rest
            from by simp [buildSlides, hlv, pyTruthy]] at h
          obtain ⟨ihm, ihl⟩ := ih d h
          have hspec : specResolved tmpl (.vdict sd) = none := by
            simp [specResolved, hlv]
          have htn : truthyName (.vdict sd) = false := by
            simp [truthyName, hlv, pyTruthy]
          constructor
          · simp [List.filterMap_cons, hspec, ihm]
          · simp [List.filter_cons, htn, ihl]
        | cons p ps =>
          rw [show buildSlides m tmpl (.vdict sd :: rest) = none
            from by simp [buildSlides, hlv, pyTruthy]] at h
          cases h
    | vnone => exact absurd h (by simp [buildSlides])
    | vstr s => exact absurd h (by simp [buildSlides])
    | vint n => exact absurd h (by simp [buildSlides])
    | vlist l => exact absurd h (by simp [buildSlides])

/-- A plan containing one slide spec whose `layout_name` is the empty
string. -/
def emptyNamePlan : PyDict :=
  [(strL "slides", .vlist [.vdict [(strL "layout_name", .vstr [])]])]

/-- A plan containing one slide spec whose `layout_name` matches no
template layout. -/
def anyNamePlan : PyDict :=
  [(strL "slides", .vlist [.vdict [(strL "layout_name", .vstr (strL "anything"))]])]

/-- C3: the claim "the deck has (number of plan slides) + 1 slides for
every plan, including specs whose layout_name is missing or empty" is
false on the code: a spec with a falsy `layout_name` is skipped
(`continue`).  Concretely, a plan with exactly one slide spec (whose
`layout_name` is the empty string) compiles to a deck of 1 slide (just
the closing slide), not 1 + 1. -/
theorem c3_deck_cex :
    asSlideList ((dget emptyNamePlan (strL "slides")).getD (.vlist [])) =
      some [.vdict [(strL "layout_name", .vstr [])]] ∧
    (build_pptx_from_plan conclusionMeta closingTmpl emptyNamePlan).map List.length =
      some 1 ∧
    (1 : Nat) ≠ 1 + 1 :=
  ⟨rfl, rfl, by decide⟩

/-- C3 (amended): on a non-empty template, a successfully compiled deck
consists of exactly one slide, resolved via `find_layout`, per slide spec
whose `layout_name` is present and truthy, followed by exactly one
trailing closing slide instantiated from the template's last declared
layout with no placeholder text; in particular the deck has
(number of truthy-named specs) + 1 slides. -/
theorem c3_deck_amended (m : Metadata) (tmpl : List SlideLayout) (plan : PyDict)
    (specs : List PVal) (d : List DeckSlide)
    (hspecs : asSlideList ((dget plan (strL "slides")).getD (.vlist [])) = some specs)
    (hbuild : build_pptx_from_plan m tmpl plan = some d)
    (htmpl : tmpl ≠ []) :
    d.length = (specs.filter truthyName).length + 1 ∧
    d.dropLast.map (·.layout) = specs.filterMap (specResolved tmpl) ∧
    d.getLast? = (tmpl.getLast?).map (fun l => ⟨l, []⟩) := by
  simp only [build_pptx_from_plan, hspecs, Option.bind_eq_bind, Option.some_bind] at hbuild
  cases hb : buildSlides m tmpl specs with
  | none => rw [hb] at hbuild; cases hbuild
  | some built =>
    rw [hb] at hbuild
    simp only [Option.some_bind] at hbuild
    have hd : add_thank_you_slide tmpl built = d := Option.some.inj hbuild
    obtain ⟨la, hla⟩ := Option.isSome_iff_exists.mp (List.getLast?_isSome.mpr htmpl)
    rw [show add_thank_you_slide tmpl built = built ++ [⟨la, []⟩] from by
      simp [add_thank_you_slide, hla]] at hd
    subst hd
    obtain ⟨hm, hl⟩ := buildSlides_props m tmpl specs built hb
    refine ⟨?_, ?_, ?_⟩
    · simp [List.length_append, hl]
    · rw [List.dropLast_concat]; exact hm
    · rw [List.getLast?_concat, hla]; rfl

/-- Witness for C3 (amended): a one-spec plan whose name resolves by
fallback compiles to that slide plus the closing slide. -/
theorem c3_deck_witness :
    ([⟨⟨some (strL "Title Slide"), [0, 1]⟩, []⟩,
      ⟨⟨some (strL "Title Slide"), [0, 1]⟩, []⟩] : List DeckSlide).length =
      (([.vdict [(strL "layout_name", .vstr (strL "anything"))]] : List PVal).filter
        truthyName).length + 1 ∧
    ([⟨⟨some (strL "Title Slide"), [0, 1]⟩, []⟩,
      ⟨⟨some (strL "Title Slide"), [0, 1]⟩, []⟩] : List DeckSlide).dropLast.map
        (·.layout) =
      ([.vdict [(strL "layout_name", .vstr (strL "anything"))]] : List PVal).filterMap
        (specResolved closingTmpl) ∧
    ([⟨⟨some (strL "Title Slide"), [0, 1]⟩, []⟩,
      ⟨⟨some (strL "Title Slide"), [0, 1]⟩, []⟩] : List DeckSlide).getLast? =
      (closingTmpl.getLast?).map (fun l => ⟨l, []⟩) :=
  c3_deck_amended conclusionMeta closingTmpl anyNamePlan
    [.vdict [(strL "layout_name", .vstr (strL "anything"))]]
    [⟨⟨some (strL "Title Slide"), [0, 1]⟩, []⟩,
     ⟨⟨some (strL "Title Slide"), [0, 1]⟩, []⟩]
    rfl rfl (by decide)
